import Mathlib

/-!
# Disaster Risk Dashboard — verification of the event aggregation and rendering pipeline

Shallow embedding of the frontend core of the disaster-risk-dashboard repository:
the poll/merge/sort cycle of the dashboard page (`Home` in the page component),
the hazard filter (`filteredEvents`), the map's coordinate validity filter and
heat-point construction (`validEvents` / `heatPoints` in `EventsMap`), the
severity→color maps (`colorForLevel`, `badgeClass`), and the dual-thumb
magnitude slider (`MagnitudeSlider`).

JavaScript values are modelled as follows:
* `number` fields that the claims compare arithmetically and that the code
  never produces NaN/∞ for are `ℚ` (severity scores, magnitudes, slider values);
* coordinate fields, whose NaN-ness the code inspects (`Number.isNaN`), are a
  dedicated `JSNum` type with NaN and the two infinities;
* nullable/optional fields are `Option _` (`none` = `null`/`undefined`);
* `time_utc` strings are modelled by their `Date.parse` outcome: a parsed
  millisecond count (an `Int`, negative before the Unix epoch) or `unparseable`
  (`Date.parse` returns NaN); `none` models an absent/empty string, which the
  code's truthiness test (`a.time_utc ? Date.parse(a.time_utc) : 0`) sends to `0`.
-/

/-- A JavaScript `number` in positions where the code distinguishes NaN
(coordinates, tested with `typeof x === "number" && !Number.isNaN(x)`). -/
inductive JSNum where
  | nan
  | posInf
  | negInf
  | num (q : ℚ)
deriving DecidableEq, Repr

/-- `true` exactly on the values `JSNum.num q`: a number that is neither NaN
nor ±∞. -/
def JSNum.finite : JSNum → Bool
  | .num _ => true
  | _ => false

/-- Outcome of `Date.parse` on a nonempty `time_utc` string: milliseconds since
the Unix epoch (negative before 1970), or NaN for an unparseable string. -/
inductive TimeVal where
  | parsed (ms : Int)
  | unparseable
deriving DecidableEq, Repr

/-- The `EventItem` record of the API module, with the fields the claims use.
`event_type` and `severity_level` are kept as strings, matching the runtime
values that flow through the JS `switch`/`===` tests. -/
structure Event where
  source : String
  source_event_id : String
  event_type : String
  time_utc : Option TimeVal
  place : Option String
  magnitude : Option ℚ
  depth_km : Option ℚ
  lat : Option JSNum
  lon : Option JSNum
  severity_score : Option ℚ
  severity_level : Option String
  url : Option String
  hazard_subtype : Option String
deriving DecidableEq, Repr

/-- A default event record used to build concrete test inputs. -/
def baseEvent : Event :=
  { source := "usgs", source_event_id := "id", event_type := "earthquake",
    time_utc := none, place := none, magnitude := none, depth_km := none,
    lat := none, lon := none, severity_score := none,
    severity_level := some "low", url := none, hazard_subtype := none }

/-! ## The merge/sort of a successful poll cycle (page component, `load`)

```js
const merged = [...(eq.events ?? []), ...(fl.events ?? [])];
merged.sort((a, b) => {
  const as = a.severity_score ?? 0;
  const bs = b.severity_score ?? 0;
  if (bs !== as) return bs - as;
  const at = a.time_utc ? Date.parse(a.time_utc) : 0;
  const bt = b.time_utc ? Date.parse(b.time_utc) : 0;
  return bt - at;
});
```

`Array.prototype.sort` is stable (ES2019) and, per the `SortCompare` spec
step "If v is NaN, return +0", a NaN comparator value counts as a tie, so a
single comparison lets `a` stay before `b` iff `comparator(a,b) ≤ 0` or is
NaN.  We embed the sort as `List.mergeSort`, a stable merge sort, under the
Boolean relation `codeLe a b = true ↔ comparator(a, b) ≤ 0 ∨ comparator(a, b) is NaN`.
When no event has an unparseable timestamp the comparator is consistent, every
stable sort produces the same list, and the embedding is exact. -/

/-- `a.severity_score ?? 0`: the primary sort key. -/
def scoreKey (e : Event) : ℚ := e.severity_score.getD 0

/-- `a.time_utc ? Date.parse(a.time_utc) : 0` as a JS value: `some ms` for an
absent (`→ 0`) or parsed timestamp, `none` for the NaN of an unparseable one. -/
def timeKeyJS (e : Event) : Option Int :=
  match e.time_utc with
  | none => some 0
  | some (.parsed ms) => some ms
  | some .unparseable => none

/-- The comparator of the page's `merged.sort`, as the relation "`a` may stay
before `b`": comparator value ≤ 0, with a NaN comparator value (an unparseable
timestamp on either side at equal scores) counting as a tie. -/
def codeLe (a b : Event) : Bool :=
  if scoreKey a = scoreKey b then
    match timeKeyJS a, timeKeyJS b with
    | some ta, some tb => decide (tb ≤ ta)
    | _, _ => true
  else
    decide (scoreKey b < scoreKey a)

/-- `time_utc` key with the code's defaults applied: absent `time_utc` is `0`
(the Unix epoch); an unparseable one also collapses to `0` here, which agrees
with `timeKeyJS` exactly on events with parseable-or-absent timestamps. -/
def timeKeyD (e : Event) : Int := (timeKeyJS e).getD 0

/-- The code's ranking as a total order on events: severity score descending,
then epoch-defaulted time descending. -/
def rankLe (a b : Event) : Bool :=
  if scoreKey a = scoreKey b then decide (timeKeyD b ≤ timeKeyD a)
  else decide (scoreKey b < scoreKey a)

/-- An event whose `time_utc` is absent or parseable (its JS time key is a
real number, not NaN). -/
def goodTime (e : Event) : Bool := (timeKeyJS e).isSome

/-- The merged collection a successful poll cycle publishes:
concatenation of the earthquake and flood lists, stably sorted by the
page's comparator. -/
def mergedEvents (eq fl : List Event) : List Event :=
  (eq ++ fl).mergeSort codeLe

/-! ## Hazard filter (page component, `filteredEvents`)

```js
if (hazard === "all") return events;
return events.filter((e) => e.event_type === hazard);
``` -/

/-- The page's `filteredEvents` memo: identity for `"all"`, otherwise keep the
events whose `event_type` equals the hazard selector. -/
def filteredEvents (events : List Event) (hazard : String) : List Event :=
  if hazard = "all" then events
  else events.filter (fun e => e.event_type = hazard)

/-! ## Map rendering (`EventsMap`): coordinate validity, heat points -/

/-- `typeof x === "number" && !Number.isNaN(x)` for a possibly-absent
coordinate: present and not NaN (infinities pass this test). -/
def isNumNotNaN : Option JSNum → Bool
  | some .nan => false
  | some _ => true
  | none => false

/-- The coordinate-validity test of `EventsMap`'s `validEvents` filter applied
to one event. -/
def hasValidCoords (e : Event) : Bool :=
  isNumNotNaN e.lat && isNumNotNaN e.lon

/-- `EventsMap`'s `validEvents`: the events of the (already filtered) input
with valid coordinates; these are the only events the map renders. -/
def validEvents (events : List Event) : List Event :=
  events.filter (fun e => hasValidCoords e)

/-- One entry of `EventsMap`'s `heatPoints`. -/
structure HeatPoint where
  lat : JSNum
  lon : JSNum
  intensity : ℚ
deriving DecidableEq, Repr

/-- `EventsMap`'s `heatPoints`: one point per valid event, with
`intensity = e.severity_score ?? 1`. The `.getD .nan` defaults are never hit:
`validEvents` guarantees both coordinates are present. -/
def heatPoints (events : List Event) : List HeatPoint :=
  (validEvents events).map (fun e =>
    { lat := e.lat.getD .nan, lon := e.lon.getD .nan,
      intensity := e.severity_score.getD 1 })

example :
    heatPoints [{ baseEvent with
      lat := some (.num 3)
      lon := some (.num 4)
      severity_score := some 7 }] =
      [{ lat := .num 3, lon := .num 4, intensity := 7 }] := by
  decide

example : heatPoints [{ baseEvent with lat := some .nan, lon := some (.num 4) }] = [] := by
  decide

/-! ### Helper lemmas about `List.merge` / `List.mergeSort`

`mergeSort` only looks at the relation on pairs of list elements, so two
relations agreeing on the list's elements sort it identically. -/

theorem merge_congr {α : Type} (le1 le2 : α → α → Bool) :
    ∀ (xs ys : List α), (∀ a ∈ xs, ∀ b ∈ ys, le1 a b = le2 a b) →
      List.merge xs ys le1 = List.merge xs ys le2
  | [], ys, _ => by simp
  | _ :: _, [], _ => by simp
  | x :: xs, y :: ys, h => by
    rw [List.cons_merge_cons, List.cons_merge_cons]
    have hxy : le1 x y = le2 x y := h x (by simp) y (by simp)
    rw [hxy]
    by_cases hc : le2 x y = true
    · rw [if_pos hc, if_pos hc,
        merge_congr le1 le2 xs (y :: ys) (fun a ha b hb => h a (by simp [ha]) b hb)]
    · rw [if_neg hc, if_neg hc,
        merge_congr le1 le2 (x :: xs) ys (fun a ha b hb => h a ha b (by simp [hb]))]
termination_by xs ys => xs.length + ys.length

theorem mergeSort_congr {α : Type} (le1 le2 : α → α → Bool) :
    ∀ (l : List α), (∀ a ∈ l, ∀ b ∈ l, le1 a b = le2 a b) →
      l.mergeSort le1 = l.mergeSort le2
  | [], _ => by simp
  | [a], _ => by simp
  | a :: b :: xs, h => by
    have h1 : (List.splitInTwo ⟨a :: b :: xs, rfl⟩).1.1.length < xs.length + 1 + 1 := by
      simp [List.splitInTwo_fst]; omega
    have h2 : (List.splitInTwo ⟨a :: b :: xs, rfl⟩).2.1.length < xs.length + 1 + 1 := by
      simp [List.splitInTwo_snd]; omega
    have hsub1 : ∀ x ∈ (List.splitInTwo ⟨a :: b :: xs, rfl⟩).1.1, x ∈ a :: b :: xs := by
      intro x hx
      rw [List.splitInTwo_fst] at hx
      exact List.take_subset _ _ hx
    have hsub2 : ∀ x ∈ (List.splitInTwo ⟨a :: b :: xs, rfl⟩).2.1, x ∈ a :: b :: xs := by
      intro x hx
      rw [List.splitInTwo_snd] at hx
      exact List.drop_subset _ _ hx
    rw [List.mergeSort, List.mergeSort]
    rw [mergeSort_congr le1 le2 _ (fun p hp q hq => h p (hsub1 p hp) q (hsub1 q hq))]
    rw [mergeSort_congr le1 le2 _ (fun p hp q hq => h p (hsub2 p hp) q (hsub2 q hq))]
    apply merge_congr
    intro p hp q hq
    rw [List.mem_mergeSort] at hp hq
    exact h p (hsub1 p hp) q (hsub2 q hq)
termination_by l => l.length

/-- `rankLe` is total. -/
theorem rankLe_total (a b : Event) : rankLe a b || rankLe b a := by
  unfold rankLe
  rcases eq_or_ne (scoreKey a) (scoreKey b) with hs | hs
  · simp only [hs, if_pos rfl]
    by_cases ht : timeKeyD b ≤ timeKeyD a
    · simp [ht]
    · simp [le_of_not_le ht]
  · rw [if_neg hs, if_neg (Ne.symm hs)]
    rcases lt_or_gt_of_ne hs with hlt | hgt
    · simp [hlt]
    · simp [hgt]

/-- `rankLe` is transitive. -/
theorem rankLe_trans (a b c : Event) :
    rankLe a b → rankLe b c → rankLe a c := by
  unfold rankLe
  intro hab hbc
  rcases eq_or_ne (scoreKey a) (scoreKey b) with hs1 | hs1 <;>
    rcases eq_or_ne (scoreKey b) (scoreKey c) with hs2 | hs2
  · rw [if_pos hs1] at hab
    rw [if_pos hs2] at hbc
    rw [if_pos (hs1.trans hs2)]
    simp only [decide_eq_true_eq] at hab hbc ⊢
    exact le_trans hbc hab
  · rw [if_neg (fun h => hs2 (hs1.symm.trans h))]
    rw [if_neg hs2] at hbc
    rw [← hs1] at hbc
    exact hbc
  · rw [if_neg (fun h => hs1 (h.trans hs2.symm))]
    rw [if_neg hs1] at hab
    rw [hs2] at hab
    exact hab
  · rw [if_neg hs1] at hab
    rw [if_neg hs2] at hbc
    simp only [decide_eq_true_eq] at hab hbc
    have : scoreKey c < scoreKey a := lt_trans hbc hab
    rw [if_neg (fun h => absurd h (ne_of_gt this))]
    simpa using this

/-- On events with parseable-or-absent timestamps the page's comparator
relation coincides with the total order `rankLe`. -/
theorem codeLe_eq_rankLe (a b : Event)
    (ha : goodTime a = true) (hb : goodTime b = true) :
    codeLe a b = rankLe a b := by
  unfold goodTime at ha hb
  unfold codeLe rankLe timeKeyD
  rcases hta : timeKeyJS a with _ | ta
  · rw [hta] at ha; simp at ha
  rcases htb : timeKeyJS b with _ | tb
  · rw [htb] at hb; simp at hb
  simp

/-- `mergeSort` on a two-element list is a single comparison. -/
theorem mergeSort_two {α : Type} (le : α → α → Bool) (a b : α) :
    [a, b].mergeSort le = if le a b then [a, b] else [b, a] := by
  rw [List.mergeSort]
  simp [List.splitInTwo, List.splitAt, List.splitAt.go, List.merge]

/-- The claim's ranking: severity score descending, then time descending with
an absent or unparseable `time_utc` treated as the earliest possible time
(strictly below every parsed timestamp), so such events sort last among equal
scores. -/
def claimTimeKey (e : Event) : Option Int :=
  match e.time_utc with
  | some (.parsed ms) => some ms
  | _ => none

/-- "`a` may come before `b`" in the order the claim describes. -/
def claimLe (a b : Event) : Bool :=
  if scoreKey a = scoreKey b then
    match claimTimeKey a, claimTimeKey b with
    | _, none => true
    | none, some _ => false
    | some ta, some tb => decide (tb ≤ ta)
  else decide (scoreKey b < scoreKey a)

/-- An earthquake event timestamped one second before the Unix epoch. -/
def evPre1970 : Event :=
  { baseEvent with severity_score := some 5, time_utc := some (.parsed (-1000)) }

/-- An event of equal severity score with an absent `time_utc`. -/
def evNoTime : Event :=
  { baseEvent with source := "nws", severity_score := some 5, time_utc := none }

/-! ## The poll cycle's visible state (page component, `Home` / `load`)

```js
const [events, setEvents] = useState<EventItem[]>([]);
const [loading, setLoading] = useState(true);
const [error, setError] = useState<string | null>(null);
...
let cancelled = false;
async function load() {
  try {
    setLoading(true);
    setError(null);
    const [eq, fl] = await Promise.all([fetchEvents({...}), fetchEvents({...})]);
    const merged = [...(eq.events ?? []), ...(fl.events ?? [])];
    merged.sort(...);
    if (!cancelled) setEvents(merged);
  } catch (e) {
    if (!cancelled) setError(e?.message ?? "Failed to load events");
  } finally {
    if (!cancelled) setLoading(false);
  }
}
```

A sub-fetch either resolves with a response whose `events` field may be absent
(`Option (List Event)`, read back with `?? []`) or rejects with an error whose
`message` may be absent (`Option String`, read back with
`?? "Failed to load events"`). `Promise.all` rejects iff either sub-fetch
rejects; we embed it with the earthquake fetch's reason taking precedence when
both reject (the claims never depend on which reason wins). -/

/-- Outcome of one sub-fetch: `ok` with the response's possibly-absent
`events` list, or a rejection carrying a possibly-absent error message. -/
abbrev FetchResult := Except (Option String) (Option (List Event))

/-- `Promise.all` over the two sub-fetches: resolves with both payloads iff
both resolve, otherwise rejects with one rejection's reason. -/
def promiseAll (eqRes flRes : FetchResult) :
    Except (Option String) (Option (List Event) × Option (List Event)) :=
  match eqRes, flRes with
  | .error e, _ => .error e
  | _, .error e => .error e
  | .ok a, .ok b => .ok (a, b)

/-- The page's user-visible React state: the published collection, the error
banner and the loading flag. -/
structure DashState where
  events : List Event
  error : Option String
  loading : Bool
deriving DecidableEq, Repr

/-- The initial state of the page: empty collection, `loading = true`,
no error. -/
def initialDash : DashState := { events := [], error := none, loading := true }

/-- The synchronous head of `load()`, before the awaited fetches:
`setLoading(true); setError(null)` (not guarded by `cancelled`). -/
def loadBegin (s : DashState) : DashState :=
  { s with loading := true, error := none }

/-- The continuation of `load()` after `Promise.all` settles, with each state
mutation individually guarded by the `cancelled` flag exactly as in the
source: `if (!cancelled) setEvents(merged)` / `if (!cancelled) setError(...)`
/ `finally { if (!cancelled) setLoading(false) }`. -/
def loadFinish (cancelled : Bool) (s : DashState)
    (res : Except (Option String) (Option (List Event) × Option (List Event))) :
    DashState :=
  match res with
  | .ok (eqEv, flEv) =>
      let s1 := if !cancelled
        then { s with events := mergedEvents (eqEv.getD []) (flEv.getD []) }
        else s
      if !cancelled then { s1 with loading := false } else s1
  | .error msg =>
      let s1 := if !cancelled
        then { s with error := some (msg.getD "Failed to load events") }
        else s
      if !cancelled then { s1 with loading := false } else s1

/-- One whole poll cycle as observed at its end: run the unguarded head, await
both fetches, run the guarded tail. -/
def loadCycle (cancelled : Bool) (s : DashState) (eqRes flRes : FetchResult) :
    DashState :=
  loadFinish cancelled (loadBegin s) (promiseAll eqRes flRes)

/-- The effect's whole mutable state: the visible dashboard state plus the
`cancelled` flag owned by the effect closure. -/
structure EffectState where
  dash : DashState
  cancelled : Bool
deriving DecidableEq, Repr

/-- The effect cleanup (`stop()`/teardown): sets `cancelled = true` (and clears
the interval, so no further cycle begins). -/
def stopEffect (s : EffectState) : EffectState := { s with cancelled := true }

/-- An in-flight cycle's result landing: the guarded tail of `load()` runs
against the current `cancelled` flag. After teardown these are the only steps
left, since the cleared interval starts no new cycle. -/
def finishStep (s : EffectState)
    (res : Except (Option String) (Option (List Event) × Option (List Event))) :
    EffectState :=
  { s with dash := loadFinish s.cancelled s.dash res }

/-! ## Severity→color maps

`EventsMap.colorForLevel` (parameter declared optional) and the page's
`badgeClass`. Both are JS `switch` statements over the runtime value of
`severity_level`; we model the scrutinee as `Option String` (`none` =
`undefined`) to capture the runtime totality of the `default` branch, which
catches `"low"`, `undefined` and every out-of-range value alike.

```js
switch (level) {
  case "critical": return "#ef4444";   // badgeClass: "bg-red-600 text-white"
  case "high":     return "#f97316";   //             "bg-orange-600 text-white"
  case "medium":   return "#eab308";   //             "bg-yellow-500 text-black"
  default:         return "#22c55e";   //             "bg-green-600 text-white"
}
``` -/

/-- `EventsMap.colorForLevel`. -/
def colorForLevel (level : Option String) : String :=
  match level with
  | some "critical" => "#ef4444"
  | some "high" => "#f97316"
  | some "medium" => "#eab308"
  | _ => "#22c55e"

/-- The page's `badgeClass` (its TS parameter type is `SeverityLevel`, but the
JS `switch` is total over whatever value arrives at runtime). -/
def badgeClass (level : Option String) : String :=
  match level with
  | some "critical" => "bg-red-600 text-white"
  | some "high" => "bg-orange-600 text-white"
  | some "medium" => "bg-yellow-500 text-black"
  | _ => "bg-green-600 text-white"

/-! ## MagnitudeSlider

```js
const clamp = (v) => Math.min(max, Math.max(min, v));
const minGap = step; // at least one "step" apart
// min thumb:  const v = clamp(Number(e.target.value)); setMinVal(Math.min(v, maxVal - minGap));
// max thumb:  const v = clamp(Number(e.target.value)); setMaxVal(Math.max(v, minVal + minGap));
``` -/

/-- The slider's props that the handlers read: bounds and step. -/
structure SliderCfg where
  lo : ℚ
  hi : ℚ
  stp : ℚ
deriving DecidableEq, Repr

/-- The slider's `clamp` helper: `Math.min(max, Math.max(min, v))`. -/
def sliderClamp (cfg : SliderCfg) (v : ℚ) : ℚ := min cfg.hi (max cfg.lo v)

/-- The slider's local thumb state `(minVal, maxVal)`. -/
structure Thumbs where
  minVal : ℚ
  maxVal : ℚ
deriving DecidableEq, Repr

/-- The min thumb's `onChange` handler. -/
def onMinChange (cfg : SliderCfg) (t : Thumbs) (v : ℚ) : Thumbs :=
  { t with minVal := min (sliderClamp cfg v) (t.maxVal - cfg.stp) }

/-- The max thumb's `onChange` handler. -/
def onMaxChange (cfg : SliderCfg) (t : Thumbs) (v : ℚ) : Thumbs :=
  { t with maxVal := max (sliderClamp cfg v) (t.minVal + cfg.stp) }

/-- One user change event on either thumb, carrying the raw input value. -/
inductive SliderChange where
  | minChange (v : ℚ)
  | maxChange (v : ℚ)
deriving DecidableEq, Repr

/-- Apply one change event. -/
def applyChange (cfg : SliderCfg) (t : Thumbs) : SliderChange → Thumbs
  | .minChange v => onMinChange cfg t v
  | .maxChange v => onMaxChange cfg t v

/-- The slider's intended invariant: both thumbs within `[lo, hi]` and the
lower thumb at most the upper thumb minus one step. -/
def ThumbsInv (cfg : SliderCfg) (t : Thumbs) : Prop :=
  cfg.lo ≤ t.minVal ∧ t.minVal ≤ cfg.hi ∧
  cfg.lo ≤ t.maxVal ∧ t.maxVal ≤ cfg.hi ∧
  t.minVal ≤ t.maxVal - cfg.stp

instance (cfg : SliderCfg) (t : Thumbs) : Decidable (ThumbsInv cfg t) := by
  unfold ThumbsInv; infer_instance

/-! ## Filter Engine with a magnitude range

Modelled from the spec: the repository's sources contain only the
`MagnitudeSlider` control; no code applies a magnitude range to the event
collection (`filteredEvents` filters by hazard alone). The spec's Filter
Engine contract (§4.3) is modelled here verbatim: "An optional magnitude
range `[min, max]` (inclusive) further restricts earthquake-type events by
`magnitude`; events missing `magnitude` are excluded when a magnitude filter
is active (cannot verify membership). Flood events are unaffected by the
magnitude range regardless of its value." -/

/-- Modelled from the spec: the Filter Engine's magnitude-range restriction,
absent from the sources (only the slider widget exists). Applies the hazard
filter of the page, then, when a range is active, keeps a flood event
unconditionally and an earthquake event iff its magnitude is present and
within `[lo, hi]` inclusive. -/
def filterWithMagnitude (events : List Event) (hazard : String)
    (range : Option (ℚ × ℚ)) : List Event :=
  let base := filteredEvents events hazard
  match range with
  | none => base
  | some (lo, hi) =>
      base.filter (fun e =>
        if e.event_type = "earthquake" then
          match e.magnitude with
          | some m => decide (lo ≤ m) && decide (m ≤ hi)
          | none => false
        else true)

/-! # Theorems about the claims -/

/-- C1, as stated, is false: the code treats an absent `time_utc` as the Unix
epoch (`0`), not as the earliest possible time. With equal severity scores, an
event parsed to one second before the epoch sorts *after* the absent-time
event, so the merged list is not sorted by the claimed order (absent time =
earliest, sorting last among equal scores). -/
theorem c1_claim_counterexample :
    mergedEvents [evPre1970] [evNoTime] = [evNoTime, evPre1970] ∧
    ¬ (mergedEvents [evPre1970] [evNoTime]).Pairwise
        (fun a b => claimLe a b = true) := by
  have hc : codeLe evPre1970 evNoTime = false := by decide
  have h : mergedEvents [evPre1970] [evNoTime] = [evNoTime, evPre1970] := by
    unfold mergedEvents
    rw [show ([evPre1970] ++ [evNoTime]) = [evPre1970, evNoTime] from rfl,
      mergeSort_two, hc]
    simp
  refine ⟨h, ?_⟩
  rw [h]
  decide

/-- C1 (amended): on a successful cycle the published collection is the stable
sort of the earthquake list followed by the flood list under the total order
"severity score descending (absent → 0), then time descending with absent
`time_utc` treated as the Unix epoch (not as the earliest possible time)" —
provided no event's `time_utc` is unparseable (an unparseable timestamp makes
the comparator return NaN, which `Array.prototype.sort` treats as a tie).
Concretely: the merge is a permutation of the concatenation, it is sorted by
`rankLe`, and any two events with equal score and equal epoch-defaulted time
keep their original concatenation order. -/
theorem c1_merged_sorted_stable (eq fl : List Event)
    (h : ∀ e ∈ eq ++ fl, goodTime e = true) :
    (mergedEvents eq fl).Perm (eq ++ fl) ∧
    (mergedEvents eq fl).Pairwise (fun a b => rankLe a b = true) ∧
    (∀ a b : Event, scoreKey a = scoreKey b → timeKeyD a = timeKeyD b →
      [a, b].Sublist (eq ++ fl) → [a, b].Sublist (mergedEvents eq fl)) := by
  have hcongr : mergedEvents eq fl = (eq ++ fl).mergeSort rankLe := by
    unfold mergedEvents
    exact mergeSort_congr codeLe rankLe (eq ++ fl)
      (fun a ha b hb => codeLe_eq_rankLe a b (h a ha) (h b hb))
  refine ⟨List.mergeSort_perm (eq ++ fl) codeLe, ?_, ?_⟩
  · rw [hcongr]
    exact List.sorted_mergeSort rankLe_trans rankLe_total (eq ++ fl)
  · intro a b hsc ht hsub
    rw [hcongr]
    refine List.pair_sublist_mergeSort rankLe_trans rankLe_total ?_ hsub
    unfold rankLe
    rw [if_pos hsc, ht]
    simp

/-- Witness for the amended C1 at a concrete two-event cycle. -/
theorem c1_merged_sorted_stable_witness :
    (mergedEvents [evPre1970] [evNoTime]).Perm ([evPre1970] ++ [evNoTime]) ∧
    (mergedEvents [evPre1970] [evNoTime]).Pairwise (fun a b => rankLe a b = true) ∧
    (∀ a b : Event, scoreKey a = scoreKey b → timeKeyD a = timeKeyD b →
      [a, b].Sublist ([evPre1970] ++ [evNoTime]) →
      [a, b].Sublist (mergedEvents [evPre1970] [evNoTime])) :=
  c1_merged_sorted_stable [evPre1970] [evNoTime] (by decide)

/-- C2: in a live (not cancelled) cycle where either sub-fetch rejects,
`Promise.all` rejects, so the cycle ends with the previously published
collection untouched, the single error slot set to one message, and loading
cleared — never a blank display or a partial merge. -/
theorem c2_failfast_preserves_events (s : DashState) (eqRes flRes : FetchResult)
    (h : (∃ m, eqRes = .error m) ∨ (∃ m, flRes = .error m)) :
    (loadCycle false s eqRes flRes).events = s.events ∧
    (∃ msg, (loadCycle false s eqRes flRes).error = some msg) ∧
    (loadCycle false s eqRes flRes).loading = false := by
  unfold loadCycle promiseAll loadBegin loadFinish
  rcases h with ⟨m, rfl⟩ | ⟨m, rfl⟩
  · simp
  · cases eqRes with
    | error e => simp
    | ok a => simp

/-- Witness for C2: a populated dashboard, earthquake fetch succeeding, flood
fetch rejecting — the shown collection survives and an error appears. -/
theorem c2_failfast_preserves_events_witness :
    (loadCycle false { events := [evNoTime], error := none, loading := false }
        (.ok (some [evPre1970])) (.error (some "boom"))).events = [evNoTime] ∧
    (∃ msg, (loadCycle false { events := [evNoTime], error := none, loading := false }
        (.ok (some [evPre1970])) (.error (some "boom"))).error = some msg) ∧
    (loadCycle false { events := [evNoTime], error := none, loading := false }
        (.ok (some [evPre1970])) (.error (some "boom"))).loading = false :=
  c2_failfast_preserves_events _ _ _ (Or.inr ⟨some "boom", rfl⟩)

/-- Any chain of in-flight completions over a state whose `cancelled` flag is
set leaves the dashboard state untouched: every mutation in the tail of
`load()` is individually guarded by `if (!cancelled)`. -/
theorem finishFold_cancelled (s : EffectState) (h : s.cancelled = true) :
    ∀ (results : List (Except (Option String)
      (Option (List Event) × Option (List Event)))),
      (results.foldl finishStep s).dash = s.dash ∧
      (results.foldl finishStep s).cancelled = true
  | [] => ⟨rfl, h⟩
  | r :: rs => by
    have hf : finishStep s r = s := by
      obtain ⟨d, c⟩ := s
      simp only at h
      subst c
      unfold finishStep loadFinish
      rcases r with m | ⟨a, b⟩ <;> simp
    rw [List.foldl_cons, hf]
    exact finishFold_cancelled s h rs

/-- C3: once the effect cleanup (`stop()`) has set the cancellation flag, any
sequence of later-resolving in-flight fetch results leaves the published
collection, the error state and the loading flag exactly as they were. (A new
cycle cannot begin: the cleanup also clears the interval, so the only
remaining steps are completions of in-flight cycles.) -/
theorem c3_stop_discards_results (s : EffectState)
    (results : List (Except (Option String)
      (Option (List Event) × Option (List Event)))) :
    (results.foldl finishStep (stopEffect s)).dash.events = s.dash.events ∧
    (results.foldl finishStep (stopEffect s)).dash.error = s.dash.error ∧
    (results.foldl finishStep (stopEffect s)).dash.loading = s.dash.loading := by
  have h := (finishFold_cancelled (stopEffect s) rfl results).1
  rw [h]
  exact ⟨rfl, rfl, rfl⟩

/-- C5: the hazard filter is a subsequence of its input (order-preserving,
non-mutating), is the identity for the `"all"` selector, and recomputation
with identical arguments is element-wise identical. -/
theorem c5_filter_pure (events : List Event) (hazard : String) :
    (filteredEvents events hazard).Sublist events ∧
    filteredEvents events "all" = events ∧
    filteredEvents events hazard = filteredEvents events hazard := by
  refine ⟨?_, by simp [filteredEvents], rfl⟩
  unfold filteredEvents
  by_cases h : hazard = "all"
  · rw [if_pos h]
  · rw [if_neg h]
    exact List.filter_sublist _

/-- C4 (about the spec-modelled magnitude filter, absent from the sources):
with a magnitude range `[lo, hi]` active, every earthquake in the output has a
present magnitude within `[lo, hi]` inclusive (so earthquakes with a missing
magnitude are excluded), and no flood event that survives the hazard filter is
ever excluded by the range. -/
theorem c4_magnitude_range (events : List Event) (hazard : String) (lo hi : ℚ) :
    (∀ e ∈ filterWithMagnitude events hazard (some (lo, hi)),
        e.event_type = "earthquake" →
        ∃ m, e.magnitude = some m ∧ lo ≤ m ∧ m ≤ hi) ∧
    (∀ e ∈ filteredEvents events hazard, e.event_type = "flood" →
        e ∈ filterWithMagnitude events hazard (some (lo, hi))) ∧
    (∀ e : Event, e.event_type = "earthquake" → e.magnitude = none →
        e ∉ filterWithMagnitude events hazard (some (lo, hi))) := by
  refine ⟨?_, ?_, ?_⟩
  · intro e he heq
    unfold filterWithMagnitude at he
    rw [List.mem_filter] at he
    rw [if_pos heq] at he
    rcases hm : e.magnitude with _ | m
    · rw [hm] at he
      simp at he
    · rw [hm] at he
      refine ⟨m, rfl, ?_⟩
      have := he.2
      simp only [Bool.and_eq_true, decide_eq_true_eq] at this
      exact this
  · intro e he hfl
    unfold filterWithMagnitude
    rw [List.mem_filter]
    refine ⟨he, ?_⟩
    rw [if_neg (by rw [hfl]; decide)]
  · intro e heq hm hmem
    unfold filterWithMagnitude at hmem
    rw [List.mem_filter, if_pos heq, hm] at hmem
    simp at hmem

/-- An earthquake with magnitude 5, one with magnitude 7, an earthquake
without a magnitude, and a flood alert, for exercising the magnitude filter. -/
def evQin : Event := { baseEvent with source_event_id := "q5", magnitude := some 5 }

def evQout : Event := { baseEvent with source_event_id := "q7", magnitude := some 7 }

def evQnoMag : Event := { baseEvent with source_event_id := "qnull" }

def evFlood : Event :=
  { baseEvent with source := "nws", source_event_id := "fl", event_type := "flood" }

/-- Witness for C4 on a concrete collection with range `[5, 6]`. -/
theorem c4_magnitude_range_witness :
    (∃ m, evQin.magnitude = some m ∧ (5:ℚ) ≤ m ∧ m ≤ 6) ∧
    evFlood ∈ filterWithMagnitude [evQin, evQout, evQnoMag, evFlood] "all" (some (5, 6)) ∧
    evQnoMag ∉ filterWithMagnitude [evQin, evQout, evQnoMag, evFlood] "all" (some (5, 6)) := by
  have h := c4_magnitude_range [evQin, evQout, evQnoMag, evFlood] "all" 5 6
  exact ⟨h.1 evQin (by decide) rfl, h.2.1 evFlood (by decide) rfl,
    h.2.2 evQnoMag rfl rfl⟩

/-- A coordinate passing the `typeof === "number" && !isNaN` test is not NaN
once unwrapped. -/
theorem getD_ne_nan (o : Option JSNum) (h : isNumNotNaN o = true) :
    o.getD .nan ≠ .nan := by
  rcases o with _ | v
  · simp [isNumNotNaN] at h
  · rcases v <;> simp_all [isNumNotNaN]

/-- A geocoded earthquake with severity score 7. -/
def evGeo : Event :=
  { baseEvent with
    lat := some (.num 3)
    lon := some (.num 4)
    severity_score := some 7 }

/-- C6, as stated, is false on one point: the coordinate check of the density
input is `typeof x === "number" && !Number.isNaN(x)`, which infinities pass,
so an event with `lat = Infinity` contributes a heat point whose `lat` is not
a finite number. -/
theorem c6_claim_counterexample :
    heatPoints [{ baseEvent with lat := some .posInf, lon := some (.num 0) }] =
      [{ lat := .posInf, lon := .num 0, intensity := 1 }] ∧
    ¬ (∀ p ∈ heatPoints [{ baseEvent with lat := some .posInf, lon := some (.num 0) }],
        p.lat.finite = true ∧ p.lon.finite = true) := by
  refine ⟨by decide, ?_⟩
  intro h
  have := h { lat := .posInf, lon := .num 0, intensity := 1 } (by decide)
  simp [JSNum.finite] at this

/-- C6 (amended): every event with present, non-NaN coordinates contributes
exactly the point `(lat, lon, severityScore ?? 1)`; events failing the check
are dropped entirely (one point per valid event, none for the rest); and
every output point's `lat` and `lon` are numbers that are not NaN — but not
necessarily finite, since the check does not reject infinities. -/
theorem c6_density_estimator (events : List Event) :
    (∀ e ∈ events, hasValidCoords e = true →
        ({ lat := e.lat.getD .nan, lon := e.lon.getD .nan,
           intensity := e.severity_score.getD 1 } : HeatPoint) ∈ heatPoints events) ∧
    (∀ p ∈ heatPoints events, p.lat ≠ .nan ∧ p.lon ≠ .nan) ∧
    (heatPoints events).length = (validEvents events).length ∧
    (∀ e ∈ events, hasValidCoords e = false → e ∉ validEvents events) := by
  refine ⟨?_, ?_, by simp [heatPoints], ?_⟩
  · intro e he hv
    unfold heatPoints
    rw [List.mem_map]
    exact ⟨e, by rw [validEvents, List.mem_filter]; exact ⟨he, hv⟩, rfl⟩
  · intro p hp
    unfold heatPoints at hp
    rw [List.mem_map] at hp
    obtain ⟨e, he, rfl⟩ := hp
    rw [validEvents, List.mem_filter] at he
    have hv := he.2
    unfold hasValidCoords at hv
    rw [Bool.and_eq_true] at hv
    exact ⟨getD_ne_nan e.lat hv.1, getD_ne_nan e.lon hv.2⟩
  · intro e _ hbad hmem
    rw [validEvents, List.mem_filter] at hmem
    rw [hmem.2] at hbad
    cases hbad

/-- Witness for the amended C6 at a concrete geocoded event. -/
theorem c6_density_estimator_witness :
    ({ lat := JSNum.num 3, lon := JSNum.num 4, intensity := 7 } : HeatPoint) ∈
      heatPoints [evGeo] := by
  have h := (c6_density_estimator [evGeo]).1 evGeo (by decide) (by decide)
  simpa [evGeo, baseEvent] using h

/-- C7: an event of the filtered collection that fails the coordinate check is
excluded from the map's event set but stays, unchanged, in the list view
(which renders `filteredEvents` itself); the map's event set is exactly the
list view filtered by coordinate validity, so validity affects map membership
only. -/
theorem c7_invalid_coords_map_only (events : List Event) (hazard : String)
    (e : Event) (hmem : e ∈ filteredEvents events hazard)
    (hbad : hasValidCoords e = false) :
    e ∉ validEvents (filteredEvents events hazard) ∧
    e ∈ filteredEvents events hazard ∧
    validEvents (filteredEvents events hazard) =
      (filteredEvents events hazard).filter (fun x => hasValidCoords x) := by
  refine ⟨?_, hmem, rfl⟩
  intro hc
  rw [validEvents, List.mem_filter] at hc
  rw [hc.2] at hbad
  cases hbad

/-- Witness for C7: an event without coordinates stays in the list view and is
dropped from the map. -/
theorem c7_invalid_coords_map_only_witness :
    evQnoMag ∉ validEvents (filteredEvents [evQnoMag, evGeo] "all") ∧
    evQnoMag ∈ filteredEvents [evQnoMag, evGeo] "all" ∧
    validEvents (filteredEvents [evQnoMag, evGeo] "all") =
      (filteredEvents [evQnoMag, evGeo] "all").filter (fun x => hasValidCoords x) :=
  c7_invalid_coords_map_only [evQnoMag, evGeo] "all" evQnoMag (by decide) (by decide)

/-- C8: both severity→color maps are total — for every runtime value of the
level, including `undefined` (`none`) and values outside the four levels,
each returns one of its four fixed colors, with everything other than
`critical`/`high`/`medium` landing on the default (low) color — and
`critical`, `high`, `medium` get pairwise distinct colors, each distinct from
the default. -/
theorem c8_severity_colors_total (level : Option String) :
    (colorForLevel level = "#ef4444" ∨ colorForLevel level = "#f97316" ∨
      colorForLevel level = "#eab308" ∨ colorForLevel level = "#22c55e") ∧
    (badgeClass level = "bg-red-600 text-white" ∨
      badgeClass level = "bg-orange-600 text-white" ∨
      badgeClass level = "bg-yellow-500 text-black" ∨
      badgeClass level = "bg-green-600 text-white") ∧
    (level ≠ some "critical" → level ≠ some "high" → level ≠ some "medium" →
      colorForLevel level = "#22c55e" ∧
      badgeClass level = "bg-green-600 text-white") ∧
    (colorForLevel (some "critical") ≠ colorForLevel (some "high") ∧
      colorForLevel (some "critical") ≠ colorForLevel (some "medium") ∧
      colorForLevel (some "high") ≠ colorForLevel (some "medium") ∧
      colorForLevel (some "critical") ≠ colorForLevel none ∧
      colorForLevel (some "high") ≠ colorForLevel none ∧
      colorForLevel (some "medium") ≠ colorForLevel none) ∧
    (badgeClass (some "critical") ≠ badgeClass (some "high") ∧
      badgeClass (some "critical") ≠ badgeClass (some "medium") ∧
      badgeClass (some "high") ≠ badgeClass (some "medium") ∧
      badgeClass (some "critical") ≠ badgeClass none ∧
      badgeClass (some "high") ≠ badgeClass none ∧
      badgeClass (some "medium") ≠ badgeClass none) := by
  refine ⟨?_, ?_, ?_, by decide, by decide⟩
  · unfold colorForLevel
    split <;> simp
  · unfold badgeClass
    split <;> simp
  · intro h1 h2 h3
    unfold colorForLevel badgeClass
    constructor <;> (split <;> simp_all)

/-- Witness for C8 at an out-of-range runtime value. -/
theorem c8_severity_colors_total_witness :
    colorForLevel (some "unknown") = "#22c55e" ∧
    badgeClass (some "unknown") = "bg-green-600 text-white" :=
  (c8_severity_colors_total (some "unknown")).2.2.1
    (by simp) (by simp) (by simp)

/-- C9: among geocoded events, a present severity score of exactly 0 yields
heat weight 0 while an absent score yields the default weight 1 — strictly
more — even though the ranking key (`severity_score ?? 0`) treats the two
events identically. -/
theorem c9_zero_vs_absent_weight (e0 eN : Event)
    (h0 : e0.severity_score = some 0) (hN : eN.severity_score = none)
    (hv0 : hasValidCoords e0 = true) (hvN : hasValidCoords eN = true) :
    (heatPoints [e0, eN]).map HeatPoint.intensity = [0, 1] ∧
    scoreKey e0 = scoreKey eN ∧ ((0:ℚ) < 1) := by
  refine ⟨?_, ?_, by norm_num⟩
  · simp [heatPoints, validEvents, List.filter_cons, hv0, hvN, h0, hN]
  · rw [scoreKey, scoreKey, h0, hN]
    rfl

/-- A geocoded event with severity score exactly 0 and one with no score. -/
def evZeroScore : Event :=
  { baseEvent with
    lat := some (.num 1)
    lon := some (.num 2)
    severity_score := some 0 }

def evNoScore : Event :=
  { baseEvent with
    source_event_id := "id2"
    lat := some (.num 3)
    lon := some (.num 4) }

/-- Witness for C9 on the two concrete events. -/
theorem c9_zero_vs_absent_weight_witness :
    (heatPoints [evZeroScore, evNoScore]).map HeatPoint.intensity = [0, 1] ∧
    scoreKey evZeroScore = scoreKey evNoScore ∧ ((0:ℚ) < 1) :=
  c9_zero_vs_absent_weight evZeroScore evNoScore rfl rfl (by decide) (by decide)

/-- C10: if the thumb pair satisfies the slider invariant (both values in
`[lo, hi]` and `minVal ≤ maxVal − step`), then after any sequence of user
change events — each handler clamping to `[lo, hi]` and capping against the
opposite thumb offset by the step gap — the invariant still holds. -/
theorem c10_slider_invariant (cfg : SliderCfg) (t : Thumbs)
    (h : ThumbsInv cfg t) (changes : List SliderChange) :
    ThumbsInv cfg (changes.foldl (applyChange cfg) t) := by
  induction changes generalizing t with
  | nil => exact h
  | cons c cs ih =>
    rw [List.foldl_cons]
    apply ih
    obtain ⟨h1, h2, h3, h4, h5⟩ := h
    have hlohi : cfg.lo ≤ cfg.hi := le_trans h1 h2
    have hc1 : ∀ v, sliderClamp cfg v ≤ cfg.hi := fun v => min_le_left _ _
    have hc2 : ∀ v, cfg.lo ≤ sliderClamp cfg v :=
      fun v => le_min hlohi (le_max_left _ _)
    rcases c with v | v
    · simp only [applyChange, onMinChange, ThumbsInv]
      exact ⟨le_min (hc2 v) (by linarith), le_trans (min_le_left _ _) (hc1 v),
        h3, h4, min_le_right _ _⟩
    · simp only [applyChange, onMaxChange, ThumbsInv]
      refine ⟨h1, h2, le_trans (hc2 v) (le_max_left _ _),
        max_le (hc1 v) (by linarith), ?_⟩
      have := le_max_right (sliderClamp cfg v) (t.minVal + cfg.stp)
      linarith

/-- Witness for C10: bounds `[0, 10]`, step 1, thumbs `(2, 5)`, three raw
change events including out-of-range ones. -/
theorem c10_slider_invariant_witness :
    ThumbsInv ⟨0, 10, 1⟩ ⟨2, 5⟩ ∧
    ThumbsInv ⟨0, 10, 1⟩
      ([SliderChange.minChange 7, SliderChange.maxChange 100,
        SliderChange.minChange (-3)].foldl (applyChange ⟨0, 10, 1⟩) ⟨2, 5⟩) :=
  ⟨by norm_num [ThumbsInv], c10_slider_invariant ⟨0, 10, 1⟩ ⟨2, 5⟩ (by norm_num [ThumbsInv]) _⟩
